import Mathlib

/- Verification of the wechat-voice repository core: the SILK format
   detector, the base64-backed voice store (`self.audio_data`), plist
   save/load persistence, the rename/delete mutations, the sequential
   conversion queue driver, the temp-file behaviour of the audio
   converters, and filename sanitization.

   Python strings are modelled as Lean `String` (keys) or `List Char`
   (stored base64 text), binary payloads as `List Nat` with each byte
   below 256, and `dict` as an association list with unique keys whose
   assignment updates in place or appends, matching CPython semantics. -/

/-- Bytes of a binary payload, each in `[0, 256)`. -/
abbrev ByteSeq := List Nat

/-- The in-memory store `self.audio_data : Dict[str, str]` mapping an entry
    name to its base64 text (modelled as a character list). -/
abbrev VDict := List (String × List Char)

/-- `d[k]`: look up the (unique) entry with key `k`. -/
def dictGet : VDict → String → Option (List Char)
  | [], _ => none
  | (k', v) :: rest, k => if k' = k then some v else dictGet rest k

/-- `d[k] = v`: update the entry in place if `k` is present, else append. -/
def dictInsert : VDict → String → List Char → VDict
  | [], k, v => [(k, v)]
  | (k', v') :: rest, k, v =>
      if k' = k then (k, v) :: rest else (k', v') :: dictInsert rest k v

/-- `d.pop(k)`: remove the entry, returning its value and the remaining map;
    `none` models the `KeyError` raised when `k` is absent. -/
def dictPop : VDict → String → Option (List Char × VDict)
  | [], _ => none
  | (k', v') :: rest, k =>
      if k' = k then some (v', rest)
      else (dictPop rest k).map (fun p => (p.1, (k', v') :: p.2))

/-- `del d[k]` (callers have validated that `k` is present). -/
def dictErase : VDict → String → VDict
  | [], _ => []
  | (k', v') :: rest, k => if k' = k then rest else (k', v') :: dictErase rest k

/-- Python dicts never hold two entries with the same key. -/
def dictNodup (d : VDict) : Prop := (d.map Prod.fst).Nodup

instance (d : VDict) : Decidable (dictNodup d) :=
  inferInstanceAs (Decidable ((d.map Prod.fst).Nodup))

/-! ## Format detector -/

/-- The 10-byte SILK signature `b'\x02#!SILK_V3'` checked by
    `play_audio` and `convert_plist_to_audio`. -/
def silkMagic : ByteSeq := [0x02, 0x23, 0x21, 0x53, 0x49, 0x4C, 0x4B, 0x5F, 0x56, 0x33]

/-- Result of classifying a payload. -/
inductive AudioFormat where
  | speechCodec : AudioFormat
  | other : AudioFormat
deriving DecidableEq

/-- `audio_bytes.startswith(b'\x02#!SILK_V3')`: SILK iff the 10-byte magic
    is a prefix of the payload. -/
def classify (b : ByteSeq) : AudioFormat :=
  if silkMagic.isPrefixOf b then .speechCodec else .other

/-! ## Base64 (model of Python's `base64.b64encode` / `b64decode`) -/

/-- The standard base64 alphabet used by `base64.b64encode`. -/
def b64Alphabet : List Char :=
  ['A', 'B', 'C', 'D', 'E', 'F', 'G', 'H', 'I', 'J', 'K', 'L', 'M',
   'N', 'O', 'P', 'Q', 'R', 'S', 'T', 'U', 'V', 'W', 'X', 'Y', 'Z',
   'a', 'b', 'c', 'd', 'e', 'f', 'g', 'h', 'i', 'j', 'k', 'l', 'm',
   'n', 'o', 'p', 'q', 'r', 's', 't', 'u', 'v', 'w', 'x', 'y', 'z',
   '0', '1', '2', '3', '4', '5', '6', '7', '8', '9', '+', '/']

/-- Character encoding a 6-bit group. -/
def b64char (n : Nat) : Char := b64Alphabet.getD n '?'

/-- Index of a character in the base64 alphabet (decoding table). -/
def b64val (c : Char) : Option Nat := b64Alphabet.findIdx? (fun a => a = c)

/-- `base64.b64encode`: emit one 4-character group per 3 input bytes, with
    `=` padding closing a final 1- or 2-byte group. -/
def b64encodeList : ByteSeq → List Char
  | [] => []
  | [a] => [b64char (a / 4), b64char (a % 4 * 16), '=', '=']
  | [a, b] => [b64char (a / 4), b64char (a % 4 * 16 + b / 16), b64char (b % 16 * 4), '=']
  | a :: b :: c :: rest =>
      b64char (a / 4) :: b64char (a % 4 * 16 + b / 16) ::
        b64char (b % 16 * 4 + c / 64) :: b64char (c % 64) :: b64encodeList rest

/-- Decode one 4-character base64 group, honoring `=` padding in the last
    two positions. -/
def decodeQuad (c1 c2 c3 c4 : Char) : Option ByteSeq :=
  match b64val c1, b64val c2 with
  | some v1, some v2 =>
      if c3 = '=' then
        if c4 = '=' then some [v1 * 4 + v2 / 16] else none
      else
        match b64val c3 with
        | some v3 =>
            if c4 = '=' then some [v1 * 4 + v2 / 16, v2 % 16 * 16 + v3 / 4]
            else
              match b64val c4 with
              | some v4 =>
                  some [v1 * 4 + v2 / 16, v2 % 16 * 16 + v3 / 4, v3 % 4 * 64 + v4]
              | none => none
        | none => none
  | _, _ => none

/-- `base64.b64decode` on well-formed input: decode each 4-character group. -/
def b64decodeList : List Char → Option ByteSeq
  | [] => some []
  | c1 :: c2 :: c3 :: c4 :: rest =>
      match decodeQuad c1 c2 c3 c4, b64decodeList rest with
      | some bs, some bs' => some (bs ++ bs')
      | _, _ => none
  | _ => none

/-! ## Voice store state and persistence -/

/-- The mutable fields of `VoiceManagerWindow` the store contract concerns:
    `self.plist_path`, `self.audio_data` and `self.modified`. -/
structure AppState where
  plistPath : Option String
  audioData : VDict
  modified : Bool
deriving DecidableEq

/-- Content of a file as seen through the persistence layer: either a
    well-formed serialized mapping (plistlib's `dump`/`load` are mutually
    inverse on `Dict[str, str]`, so a well-formed file is carried as the
    mapping it denotes) or malformed content on which `plistlib.load`
    raises. -/
inductive PlistContent where
  | good : VDict → PlistContent
  | malformed : PlistContent
deriving DecidableEq

/-- A file on disk: its content and whether the owner write bit
    (`mode & 0o200`) is set. -/
structure FileState where
  content : PlistContent
  writable : Bool
deriving DecidableEq

/-- The file system as a path-indexed association list. -/
abbrev FS := List (String × FileState)

def fsGet : FS → String → Option FileState
  | [], _ => none
  | (p', f) :: rest, p => if p' = p then some f else fsGet rest p

def fsSet : FS → String → FileState → FS
  | [], p, f => [(p, f)]
  | (p', f') :: rest, p, f =>
      if p' = p then (p, f) :: rest else (p', f') :: fsSet rest p f

def fsSetWritable : FS → String → FS
  | [], _ => []
  | (p', f') :: rest, p =>
      if p' = p then (p', { f' with writable := true }) :: rest
      else (p', f') :: fsSetWritable rest p

inductive LoadResult where
  | loaded : LoadResult
  | loadError : LoadResult
deriving DecidableEq

/-- `load_plist` (voice_manager.py lines 515-525): `plistlib.load` the file;
    on success replace `audio_data`, record the path and clear `modified`;
    any open or parse exception is caught leaving every field untouched. -/
def loadPlist (st : AppState) (fs : FS) (path : String) : AppState × LoadResult :=
  match fsGet fs path with
  | some ⟨PlistContent.good d, _⟩ =>
      ({ plistPath := some path, audioData := d, modified := false }, .loaded)
  | some ⟨PlistContent.malformed, _⟩ => (st, .loadError)
  | none => (st, .loadError)

/-- Outcome of an OS call attempted during save. -/
inductive OsOutcome where
  | ok : OsOutcome
  | permErr : OsOutcome
  | otherErr : OsOutcome
deriving DecidableEq

/-- Failure injection for the two OS calls `save_plist` makes:
    `os.chmod` (when restoring the write bit) and `open`/`plistlib.dump`. -/
structure OsEnv where
  chmodResult : OsOutcome
  writeResult : OsOutcome
deriving DecidableEq

inductive SaveResult where
  | saved : SaveResult
  | permissionDenied : SaveResult
  | otherError : SaveResult
  | needsPath : SaveResult
deriving DecidableEq

/-- The `open(self.plist_path, 'wb'); plistlib.dump(...)` step of
    `save_plist` with its caught exception branches: on success the full
    mapping is written and `modified` clears; a `PermissionError` or any
    other exception is reported with the in-memory state untouched. -/
def doWrite (st : AppState) (fs : FS) (ev : OsEnv) (path : String) :
    AppState × FS × SaveResult :=
  match ev.writeResult with
  | .ok => ({ st with modified := false },
            fsSet fs path ⟨PlistContent.good st.audioData, true⟩, .saved)
  | .permErr => (st, fs, .permissionDenied)
  | .otherErr => (st, fs, .otherError)

/-- `save_plist` (voice_manager.py lines 871-892): with no recorded path the
    code defers to the save-as dialog; otherwise, if the target exists
    without the write bit, it first attempts `os.chmod(path, mode | 0o200)`;
    a raising chmod is caught by the same handlers; then the mapping is
    dumped. -/
def savePlist (st : AppState) (fs : FS) (ev : OsEnv) : AppState × FS × SaveResult :=
  match st.plistPath with
  | none => (st, fs, .needsPath)
  | some path =>
      match fsGet fs path with
      | some fi =>
          if fi.writable then doWrite st fs ev path
          else
            match ev.chmodResult with
            | .ok => doWrite st (fsSetWritable fs path) ev path
            | .permErr => (st, fs, .permissionDenied)
            | .otherErr => (st, fs, .otherError)
      | none => doWrite st fs ev path

/-! ## Store mutations -/

/-- Outcome of the rename dialog flow. -/
inductive RenameKind where
  | renamed : RenameKind
  | conflict : RenameKind
  | noop : RenameKind
  | keyError : RenameKind
deriving DecidableEq

/-- `rename_selected` (voice_manager.py lines 720-737), after the dialog
    returned `ok` with text `new`: the body runs only under
    `new_name and new_name != old_name`; an existing `new_name` shows the
    conflict warning and returns; otherwise
    `audio_data[new_name] = audio_data.pop(old_name)`. -/
def renameSelected (d : VDict) (old new : String) : VDict × RenameKind :=
  if new ≠ "" ∧ new ≠ old then
    if (dictGet d new).isSome then (d, .conflict)
    else
      match dictPop d old with
      | some (v, d') => (dictInsert d' new v, .renamed)
      | none => (d, .keyError)
  else (d, .noop)

/-- `on_convert_finished` (voice_manager.py lines 682-688):
    `audio_data[name] = base64.b64encode(silk_data).decode('utf-8')`,
    then `modified = True`. -/
def onConvertFinished (st : AppState) (name : String) (silk : ByteSeq) : AppState :=
  { st with audioData := dictInsert st.audioData name (b64encodeList silk),
            modified := true }

/-- The read path of `play_audio` (voice_manager.py lines 552-560): absent
    names return, present ones have their stored text base64-decoded. -/
def getAudioPayload (st : AppState) (name : String) : Option ByteSeq :=
  match dictGet st.audioData name with
  | none => none
  | some s => b64decodeList s

/-- `delete_selected`'s confirmed branch (voice_manager.py lines 757-761):
    `del audio_data[name]` for every selected name (each taken from the
    list widget, hence present), then `modified = True`. -/
def deleteSelected (st : AppState) (names : List String) : AppState :=
  { st with audioData := names.foldl dictErase st.audioData, modified := true }

/-! ## Operations over the store, for the modified-flag invariant -/

inductive StoreOp where
  | put : String → ByteSeq → StoreOp
  | rename : String → String → StoreOp
  | delete : List String → StoreOp
  | load : String → StoreOp
  | save : StoreOp
deriving DecidableEq

inductive OpResult where
  | mutated : OpResult
  | renameNoop : OpResult
  | renameConflict : OpResult
  | renameKeyError : OpResult
  | loaded : OpResult
  | loadError : OpResult
  | saved : OpResult
  | permissionDenied : OpResult
  | otherError : OpResult
  | needsPath : OpResult
deriving DecidableEq

/-- One store operation as the GUI dispatches it. -/
def applyOp (st : AppState) (fs : FS) (ev : OsEnv) : StoreOp → AppState × FS × OpResult
  | .put n p => (onConvertFinished st n p, fs, .mutated)
  | .rename old new =>
      match renameSelected st.audioData old new with
      | (d, RenameKind.renamed) =>
          ({ st with audioData := d, modified := true }, fs, .mutated)
      | (_, RenameKind.conflict) => (st, fs, .renameConflict)
      | (_, RenameKind.noop) => (st, fs, .renameNoop)
      | (_, RenameKind.keyError) => (st, fs, .renameKeyError)
  | .delete names => (deleteSelected st names, fs, .mutated)
  | .load path =>
      match loadPlist st fs path with
      | (st', LoadResult.loaded) => (st', fs, .loaded)
      | (st', LoadResult.loadError) => (st', fs, .loadError)
  | .save =>
      match savePlist st fs ev with
      | (st', fs', SaveResult.saved) => (st', fs', .saved)
      | (st', fs', SaveResult.permissionDenied) => (st', fs', .permissionDenied)
      | (st', fs', SaveResult.otherError) => (st', fs', .otherError)
      | (st', fs', SaveResult.needsPath) => (st', fs', .needsPath)

/-! ## Conversion queue -/

/-- ASCII whitespace stripped by `str.strip()` (the model's whitespace set). -/
def isSpaceChar (c : Char) : Bool := c == ' ' || c == '\t' || c == '\n' || c == '\r'

/-- `str.strip()`: drop whitespace from both ends. -/
def stripChars (l : List Char) : List Char :=
  List.dropWhile isSpaceChar ((List.dropWhile isSpaceChar l.reverse).reverse)

/-- The per-job interactive inputs and encode outcome consumed by
    `convert_next`: the name dialog result (`none` = cancelled), the
    overwrite-confirmation answer, and the `audio_to_silk` result
    (`none` = conversion failure). -/
structure JobInput where
  sourceStem : String
  nameResponse : Option String
  overwriteYes : Bool
  convertResult : Option ByteSeq
deriving DecidableEq

inductive JobOutcome where
  | skipped : JobOutcome
  | succeeded : String → JobOutcome
  | failed : String → JobOutcome
deriving DecidableEq

/-- The strictly sequential driver `convert_next` / `on_convert_finished` /
    `on_convert_error` (voice_manager.py lines 639-693) collapsed to a
    recursion over the pending queue: a cancelled dialog or a name that is
    empty after `.strip()` skips the job; an existing name with overwrite
    declined skips; otherwise the encode result is stored via
    `audio_data[name] = b64encode(silk)` or the failure reported, and the
    next job is processed. -/
def runQueue (d : VDict) : List JobInput → VDict × List JobOutcome
  | [] => (d, [])
  | j :: rest =>
      match j.nameResponse with
      | none =>
          let r := runQueue d rest
          (r.1, JobOutcome.skipped :: r.2)
      | some raw =>
          let name : String := ⟨stripChars raw.data⟩
          if name = "" then
            let r := runQueue d rest
            (r.1, JobOutcome.skipped :: r.2)
          else if (dictGet d name).isSome && !j.overwriteYes then
            let r := runQueue d rest
            (r.1, JobOutcome.skipped :: r.2)
          else
            match j.convertResult with
            | some silk =>
                let r := runQueue (dictInsert d name (b64encodeList silk)) rest
                (r.1, JobOutcome.succeeded name :: r.2)
            | none =>
                let r := runQueue d rest
                (r.1, JobOutcome.failed name :: r.2)

/-- Number of jobs that reached `Succeeded`. -/
def successCount (outs : List JobOutcome) : Nat :=
  outs.countP (fun o => match o with | JobOutcome.succeeded _ => true | _ => false)

/-- The status-bar text shown by `convert_next` when the queue is
    exhausted — a fixed message with no counts in it. -/
def batchCompleteMessage : String := "添加完成"

/-- A full batch: final store, per-job outcomes, and the completion signal
    the code emits on exhaustion. -/
def runBatch (d : VDict) (jobs : List JobInput) : VDict × List JobOutcome × String :=
  ((runQueue d jobs).1, (runQueue d jobs).2, batchCompleteMessage)

/-! ## Temporary files of the converters -/

/-- The intermediate scratch files of the converters (the produced wav/mp3
    handed to the caller is the product, not an intermediate). -/
inductive TempArtifact where
  | silkTmp : TempArtifact
  | pcmTmp : TempArtifact
deriving DecidableEq, BEq

/-- Failure injection for `audio_to_silk`: whether ffmpeg resolves, whether
    it exits zero, and whether `pilk.encode` succeeds. -/
structure ConvEnv where
  ffmpegFound : Bool
  ffmpegExitOk : Bool
  encodeOk : Bool
deriving DecidableEq

/-- `AudioConverter.audio_to_silk` (voice_manager.py lines 209-297),
    tracking temp files as (success, created, unlinked): an unresolvable
    ffmpeg returns before the PCM temp exists; a nonzero ffmpeg exit does
    `return None` with the PCM temp still on disk; a raising `pilk.encode`
    is caught likewise; only the success path unlinks the PCM and SILK
    temps. -/
def audioToSilkTemps (ev : ConvEnv) : Bool × List TempArtifact × List TempArtifact :=
  if !ev.ffmpegFound then (false, [], [])
  else if !ev.ffmpegExitOk then (false, [TempArtifact.pcmTmp], [])
  else if !ev.encodeOk then (false, [TempArtifact.pcmTmp], [])
  else (true, [TempArtifact.pcmTmp, TempArtifact.silkTmp],
        [TempArtifact.pcmTmp, TempArtifact.silkTmp])

/-- Failure injection for the decode direction: whether the pilk/pydub
    imports succeed, whether `pilk.decode` succeeds, and whether the pydub
    export succeeds. -/
structure DecodeEnv where
  importsOk : Bool
  decodeOk : Bool
  exportOk : Bool
deriving DecidableEq

/-- `AudioConverter.silk_to_wav` (voice_manager.py lines 93-122): the silk
    temp is written first; a raising `pilk.decode` is caught leaving it
    behind; a failing export leaves silk and pcm; only success unlinks both
    intermediates before returning the wav product. -/
def silkToWavTemps (ev : DecodeEnv) : Bool × List TempArtifact × List TempArtifact :=
  if !ev.importsOk then (false, [], [])
  else if !ev.decodeOk then (false, [TempArtifact.silkTmp], [])
  else if !ev.exportOk then (false, [TempArtifact.silkTmp, TempArtifact.pcmTmp], [])
  else (true, [TempArtifact.silkTmp, TempArtifact.pcmTmp],
        [TempArtifact.silkTmp, TempArtifact.pcmTmp])

/-- `convert_silk_to_audio` (convert_plist_to_audio.py lines 30-61): both
    temps are created up front and a `finally` block unlinks them on every
    path after creation; a failing import happens before any temp exists. -/
def convertSilkToAudioCli (ev : DecodeEnv) : Bool × List TempArtifact × List TempArtifact :=
  if !ev.importsOk then (false, [], [])
  else if !ev.decodeOk then
    (false, [TempArtifact.silkTmp, TempArtifact.pcmTmp],
     [TempArtifact.silkTmp, TempArtifact.pcmTmp])
  else if !ev.exportOk then
    (false, [TempArtifact.silkTmp, TempArtifact.pcmTmp],
     [TempArtifact.silkTmp, TempArtifact.pcmTmp])
  else (true, [TempArtifact.silkTmp, TempArtifact.pcmTmp],
        [TempArtifact.silkTmp, TempArtifact.pcmTmp])

/-- Temps still on disk after a call: created minus unlinked. -/
def leftoverTemps (r : Bool × List TempArtifact × List TempArtifact) : List TempArtifact :=
  r.2.1.diff r.2.2

/-! ## Filename sanitization -/

/-- The characters removed by `re.sub(r'[<>:"/\\|?*]', '', name)`. -/
def illegalFilenameChars : List Char := ['<', '>', ':', '"', '/', '\\', '|', '?', '*']

/-- `sanitize_filename` (convert_plist_to_audio.py lines 23-28): drop the
    illegal characters, truncate to 50, strip surrounding whitespace, and
    fall back to "unnamed" when nothing remains. -/
def sanitize_filename (name : List Char) : List Char :=
  let cleaned := name.filter (fun c => !illegalFilenameChars.contains c)
  let truncated := cleaned.take 50
  let stripped := stripChars truncated
  if stripped.isEmpty then "unnamed".data else stripped

/-- Leading-character test used to state "no leading/trailing whitespace". -/
def startsWithSpace : List Char → Bool
  | [] => false
  | c :: _ => isSpaceChar c

/-! ## Theorems and claims -/

theorem dictGet_insert_self (d : VDict) (k : String) (v : List Char) :
    dictGet (dictInsert d k v) k = some v := by
  induction d with
  | nil => simp [dictInsert, dictGet]
  | cons hd rest ih =>
      obtain ⟨k', v'⟩ := hd
      by_cases h : k' = k
      · simp [dictInsert, dictGet, h]
      · simp [dictInsert, dictGet, h, ih]

theorem dictGet_insert_ne (d : VDict) (k k' : String) (v : List Char)
    (h : k' ≠ k) : dictGet (dictInsert d k v) k' = dictGet d k' := by
  induction d with
  | nil =>
      have h1 : ¬ k = k' := fun hh => h hh.symm
      simp [dictInsert, dictGet, h1]
  | cons hd rest ih =>
      obtain ⟨k'', v''⟩ := hd
      by_cases hk : k'' = k
      · subst hk
        have h1 : ¬ k'' = k' := fun hh => h hh.symm
        simp [dictInsert, dictGet, h1]
      · by_cases hk' : k'' = k'
        · subst hk'
          simp [dictInsert, dictGet, hk]
        · simp [dictInsert, dictGet, hk, hk', ih]

theorem dictPop_of_get (d : VDict) (k : String) (v : List Char)
    (h : dictGet d k = some v) :
    ∃ d', dictPop d k = some (v, d') := by
  induction d with
  | nil => simp [dictGet] at h
  | cons hd rest ih =>
      obtain ⟨k', v'⟩ := hd
      by_cases hk : k' = k
      · simp [dictGet, hk] at h
        exact ⟨rest, by simp [dictPop, hk, h]⟩
      · simp [dictGet, hk] at h
        obtain ⟨d', hd'⟩ := ih h
        exact ⟨(k', v') :: d', by simp [dictPop, hk, hd']⟩

theorem dictGet_eq_none_of_not_mem (d : VDict) (k : String)
    (h : k ∉ d.map Prod.fst) : dictGet d k = none := by
  induction d with
  | nil => rfl
  | cons hd rest ih =>
      obtain ⟨k', v'⟩ := hd
      simp only [List.map_cons, List.mem_cons] at h
      push_neg at h
      have h1 : ¬ k' = k := fun hh => h.1 hh.symm
      simp [dictGet, h1, ih h.2]

theorem dictGet_pop_self (d : VDict) (k : String) (v : List Char) (d' : VDict)
    (hnd : dictNodup d) (h : dictPop d k = some (v, d')) :
    dictGet d' k = none := by
  induction d generalizing d' with
  | nil => simp [dictPop] at h
  | cons hd rest ih =>
      obtain ⟨k', v'⟩ := hd
      rw [dictNodup, List.map_cons, List.nodup_cons] at hnd
      have hnd' : dictNodup rest := hnd.2
      by_cases hk : k' = k
      · simp only [dictPop, if_pos hk, Option.some.injEq, Prod.mk.injEq] at h
        have hmem : k ∉ rest.map Prod.fst := by rw [← hk]; exact hnd.1
        rw [← h.2]
        exact dictGet_eq_none_of_not_mem rest k hmem
      · simp only [dictPop, if_neg hk] at h
        cases hp : dictPop rest k with
        | none => rw [hp] at h; exact Option.noConfusion h
        | some p =>
            obtain ⟨p1, p2⟩ := p
            rw [hp] at h
            simp only [Option.map_some', Option.some.injEq, Prod.mk.injEq] at h
            obtain ⟨hp1, hp2⟩ := h
            rw [← hp2]
            have hpop : dictPop rest k = some (v, p2) := by rw [hp, hp1]
            have hrec := ih p2 hnd' hpop
            simp [dictGet, hk, hrec]

theorem dictGet_pop_ne (d : VDict) (k k' : String) (v : List Char) (d' : VDict)
    (hne : k' ≠ k) (h : dictPop d k = some (v, d')) :
    dictGet d' k' = dictGet d k' := by
  induction d generalizing d' with
  | nil => simp [dictPop] at h
  | cons hd rest ih =>
      obtain ⟨k'', v''⟩ := hd
      by_cases hk : k'' = k
      · simp only [dictPop, if_pos hk, Option.some.injEq, Prod.mk.injEq] at h
        rw [← h.2]
        have h1 : ¬ k'' = k' := by
          rw [hk]
          exact fun hh => hne hh.symm
        simp [dictGet, h1]
      · simp only [dictPop, if_neg hk] at h
        cases hp : dictPop rest k with
        | none => rw [hp] at h; exact Option.noConfusion h
        | some p =>
            obtain ⟨p1, p2⟩ := p
            rw [hp] at h
            simp only [Option.map_some', Option.some.injEq, Prod.mk.injEq] at h
            obtain ⟨hp1, hp2⟩ := h
            rw [← hp2]
            have hpop : dictPop rest k = some (v, p2) := by rw [hp, hp1]
            have hrec := ih p2 hpop
            by_cases hk' : k'' = k'
            · simp [dictGet, hk']
            · simp [dictGet, hk', hrec]

theorem isPrefixOf_iff_take (l : ByteSeq) :
    ∀ b : ByteSeq, l.isPrefixOf b = true ↔ List.take l.length b = l := by
  induction l with
  | nil => intro b; simp [List.isPrefixOf]
  | cons a l ih =>
      intro b
      cases b with
      | nil => simp [List.isPrefixOf]
      | cons x xs =>
          simp only [List.isPrefixOf, List.length_cons, List.take_succ_cons,
            Bool.and_eq_true, beq_iff_eq, List.cons.injEq, ih]
          constructor
          · rintro ⟨h1, h2⟩; exact ⟨h1.symm, h2⟩
          · rintro ⟨h1, h2⟩; exact ⟨h1.symm, h2⟩

/-- Claim C2: `classify` returns SpeechCodec iff the first 10 bytes equal the
    SILK magic (`0x02` then ASCII `#!SILK_V3`); every buffer shorter than 10
    bytes — the 9-byte all-zero buffer included — classifies as Opaque. -/
theorem classify_magic_spec (b : ByteSeq) :
    (classify b = AudioFormat.speechCodec ↔ List.take 10 b = silkMagic) ∧
    (b.length < 10 → classify b = AudioFormat.other) := by
  have key : classify b = AudioFormat.speechCodec ↔ List.take 10 b = silkMagic := by
    rw [show (10 : Nat) = silkMagic.length from rfl, ← isPrefixOf_iff_take]
    unfold classify
    by_cases h : silkMagic.isPrefixOf b = true
    · simp [h]
    · simp [h]
  refine ⟨key, fun hlt => ?_⟩
  cases hcb : classify b with
  | speechCodec =>
      have ht := key.mp hcb
      have hlen : (List.take 10 b).length = silkMagic.length := by rw [ht]
      simp only [List.length_take] at hlen
      have : silkMagic.length = 10 := rfl
      omega
  | other => rfl

/-- Witness for C2: the 9-byte all-zero buffer is Opaque; a buffer starting
    with the full magic is SpeechCodec. -/
theorem classify_magic_spec_witness :
    classify (List.replicate 9 0) = AudioFormat.other ∧
    classify (silkMagic ++ [0, 1]) = AudioFormat.speechCodec :=
  ⟨(classify_magic_spec (List.replicate 9 0)).2 (by decide),
   (classify_magic_spec (silkMagic ++ [0, 1])).1.mpr (by decide)⟩

theorem b64val_b64char : ∀ n, n < 64 → b64val (b64char n) = some n := by decide

theorem b64char_ne_pad : ∀ n, n < 64 → ¬ (b64char n = '=') := by decide

theorem decodeQuad_encode (a b c : Nat) (ha : a < 256) (hb : b < 256) (hc : c < 256) :
    decodeQuad (b64char (a / 4)) (b64char (a % 4 * 16 + b / 16))
      (b64char (b % 16 * 4 + c / 64)) (b64char (c % 64)) = some [a, b, c] := by
  have h1 := b64val_b64char (a / 4) (by omega)
  have h2 := b64val_b64char (a % 4 * 16 + b / 16) (by omega)
  have h3 := b64val_b64char (b % 16 * 4 + c / 64) (by omega)
  have h4 := b64val_b64char (c % 64) (by omega)
  have n3 := b64char_ne_pad (b % 16 * 4 + c / 64) (by omega)
  have n4 := b64char_ne_pad (c % 64) (by omega)
  simp only [decodeQuad, h1, h2, h3, h4, if_neg n3, if_neg n4,
    Option.some.injEq, List.cons.injEq, and_true]
  refine ⟨by omega, by omega, by omega⟩

/-- Round trip of the base64 layer: decoding an encoded byte payload gives
    back exactly the payload. -/
theorem b64_roundtrip : ∀ p : ByteSeq, (∀ x ∈ p, x < 256) →
    b64decodeList (b64encodeList p) = some p
  | [], _ => rfl
  | [a], h => by
      have ha : a < 256 := h a (by simp)
      have h1 := b64val_b64char (a / 4) (by omega)
      have h2 := b64val_b64char (a % 4 * 16) (by omega)
      simp only [b64encodeList, b64decodeList, decodeQuad, h1, h2, if_pos rfl,
        Option.some.injEq]
      have : a / 4 * 4 + a % 4 * 16 / 16 = a := by omega
      rw [this]
      rfl
  | [a, b], h => by
      have ha : a < 256 := h a (by simp)
      have hb : b < 256 := h b (by simp)
      have h1 := b64val_b64char (a / 4) (by omega)
      have h2 := b64val_b64char (a % 4 * 16 + b / 16) (by omega)
      have h3 := b64val_b64char (b % 16 * 4) (by omega)
      have n3 := b64char_ne_pad (b % 16 * 4) (by omega)
      simp only [b64encodeList, b64decodeList, decodeQuad, h1, h2, h3,
        if_neg n3, if_pos rfl, Option.some.injEq]
      have e1 : a / 4 * 4 + (a % 4 * 16 + b / 16) / 16 = a := by omega
      have e2 : (a % 4 * 16 + b / 16) % 16 * 16 + b % 16 * 4 / 4 = b := by omega
      rw [e1, e2]
      rfl
  | a :: b :: c :: rest, h => by
      have ha : a < 256 := h a (by simp)
      have hb : b < 256 := h b (by simp)
      have hc : c < 256 := h c (by simp)
      have ih := b64_roundtrip rest (fun x hx => h x (by simp [hx]))
      have hq := decodeQuad_encode a b c ha hb hc
      simp only [b64encodeList, b64decodeList, hq, ih]
      rfl

theorem fsGet_fsSet_self (fs : FS) (p : String) (f : FileState) :
    fsGet (fsSet fs p f) p = some f := by
  induction fs with
  | nil => simp [fsSet, fsGet]
  | cons hd rest ih =>
      obtain ⟨p', f'⟩ := hd
      by_cases h : p' = p
      · simp [fsSet, fsGet, h]
      · simp [fsSet, fsGet, h, ih]

/-- Claim C1 counterexample: with `"a"` present and the empty string — an
    absent name — as the new name, the claim requires the rename to move the
    payload to `get("")`; the code's `if ok and new_name and ...` guard
    instead makes it a silent no-op: the map is untouched and `get("")`
    stays NotFound. -/
theorem renameSelected_emptyName_counterexample :
    dictGet [("a", ['x'])] "" = none ∧
    renameSelected [("a", ['x'])] "a" "" = ([("a", ['x'])], RenameKind.noop) ∧
    dictGet (renameSelected [("a", ['x'])] "a" "").1 "" = none := by decide

/-- Claim C1 (amended): with `old` present, `rename_selected` is a silent
    no-op when the new name is empty or equals `old`; when a different
    nonempty `new` already exists it fails with Conflict leaving the map
    exactly as before; otherwise it moves the payload — afterwards
    `get(new)` returns the prior `get(old)` and `get(old)` is NotFound. -/
theorem renameSelected_spec (d : VDict) (old new : String)
    (hnd : dictNodup d) (hold : (dictGet d old).isSome = true) :
    ((new = "" ∨ new = old) → renameSelected d old new = (d, RenameKind.noop)) ∧
    (new ≠ "" → new ≠ old → (dictGet d new).isSome = true →
        renameSelected d old new = (d, RenameKind.conflict)) ∧
    (new ≠ "" → new ≠ old → dictGet d new = none →
        (renameSelected d old new).2 = RenameKind.renamed ∧
        dictGet (renameSelected d old new).1 new = dictGet d old ∧
        dictGet (renameSelected d old new).1 old = none) := by
  refine ⟨?_, ?_, ?_⟩
  · intro h
    have hcond : ¬ (new ≠ "" ∧ new ≠ old) := by
      rcases h with h | h
      · exact fun hc => hc.1 h
      · exact fun hc => hc.2 h
    simp [renameSelected, hcond]
  · intro h1 h2 h3
    simp [renameSelected, h1, h2, h3]
  · intro h1 h2 h3
    obtain ⟨v, hv⟩ : ∃ v, dictGet d old = some v := by
      cases hg : dictGet d old with
      | none => rw [hg] at hold; simp at hold
      | some v => exact ⟨v, rfl⟩
    obtain ⟨d', hd'⟩ := dictPop_of_get d old v hv
    have hred : renameSelected d old new = (dictInsert d' new v, RenameKind.renamed) := by
      simp [renameSelected, h1, h2, h3, hd']
    rw [hred]
    refine ⟨rfl, ?_, ?_⟩
    · rw [dictGet_insert_self, hv]
    · rw [dictGet_insert_ne d' new old v (fun hh => h2 hh.symm)]
      exact dictGet_pop_self d old v d' hnd hd'

/-- Witness for the amended C1 at the spec's own scenario:
    `{"greeting": B}` renamed to `"hello"`. -/
theorem renameSelected_spec_witness :
    (renameSelected [("greeting", ['B'])] "greeting" "hello").2 = RenameKind.renamed ∧
    dictGet (renameSelected [("greeting", ['B'])] "greeting" "hello").1 "hello" =
      dictGet [("greeting", ['B'])] "greeting" ∧
    dictGet (renameSelected [("greeting", ['B'])] "greeting" "hello").1 "greeting" = none :=
  (renameSelected_spec [("greeting", ['B'])] "greeting" "hello" (by decide)
    (by decide)).2.2 (by decide) (by decide) (by decide)

/-- Claim C6: storing a conversion result under a name and reading it back
    returns the payload byte-identical — the base64 encode on put composed
    with the decode on get is the identity, for any name and payload. -/
theorem put_get_roundtrip (st : AppState) (name : String) (p : ByteSeq)
    (hp : ∀ x ∈ p, x < 256) :
    getAudioPayload (onConvertFinished st name p) name = some p := by
  simp only [getAudioPayload, onConvertFinished]
  rw [dictGet_insert_self]
  exact b64_roundtrip p hp

/-- Witness for C6 at the empty payload and at a small concrete payload. -/
theorem put_get_roundtrip_witness :
    getAudioPayload (onConvertFinished ⟨none, [], false⟩ "clip" []) "clip" = some [] ∧
    getAudioPayload (onConvertFinished ⟨none, [], false⟩ "clip2" [2, 35, 33, 255]) "clip2" =
      some [2, 35, 33, 255] :=
  ⟨put_get_roundtrip ⟨none, [], false⟩ "clip" [] (by decide),
   put_get_roundtrip ⟨none, [], false⟩ "clip2" [2, 35, 33, 255] (by decide)⟩

/-- Claim C3: when the target exists without the write bit, save attempts
    the chmod repair first, and if that raises `PermissionError` the call
    surfaces PermissionDenied with the mapping and dirty flag exactly as
    before; more generally no failing save mutates the state, and a
    successful save clears `modified` keeping the mapping intact. -/
theorem savePlist_permission_spec :
    (∀ (st : AppState) (fs : FS) (ev : OsEnv) (path : String) (fi : FileState),
        st.plistPath = some path → fsGet fs path = some fi → fi.writable = false →
        ev.chmodResult = OsOutcome.permErr →
        savePlist st fs ev = (st, fs, SaveResult.permissionDenied)) ∧
    (∀ (st : AppState) (fs : FS) (ev : OsEnv),
        (savePlist st fs ev).2.2 ≠ SaveResult.saved →
        (savePlist st fs ev).1 = st) ∧
    (∀ (st : AppState) (fs : FS) (ev : OsEnv),
        (savePlist st fs ev).2.2 = SaveResult.saved →
        (savePlist st fs ev).1.modified = false ∧
        (savePlist st fs ev).1.audioData = st.audioData) := by
  refine ⟨?_, ?_, ?_⟩
  · intro st fs ev path fi hpath hfs hw hch
    simp [savePlist, hpath, hfs, hw, hch]
  · intro st fs ev h
    cases hp : st.plistPath with
    | none => simp [savePlist, hp]
    | some path =>
        cases hfs : fsGet fs path with
        | none =>
            cases hw : ev.writeResult <;>
              simp [savePlist, doWrite, hp, hfs, hw] at h ⊢
        | some fi =>
            cases hwr : fi.writable <;> cases hc : ev.chmodResult <;>
              cases hw : ev.writeResult <;>
              simp [savePlist, doWrite, hp, hfs, hwr, hc, hw] at h ⊢
  · intro st fs ev h
    cases hp : st.plistPath with
    | none => simp [savePlist, hp] at h
    | some path =>
        cases hfs : fsGet fs path with
        | none =>
            cases hw : ev.writeResult <;>
              simp [savePlist, doWrite, hp, hfs, hw] at h ⊢
        | some fi =>
            cases hwr : fi.writable <;> cases hc : ev.chmodResult <;>
              cases hw : ev.writeResult <;>
              simp [savePlist, doWrite, hp, hfs, hwr, hc, hw] at h ⊢

/-- Witness for C3: a concrete read-only target whose chmod fails leaves
    the (dirty) state untouched and reports PermissionDenied. -/
theorem savePlist_permission_spec_witness :
    savePlist ⟨some "voices.plist", [("a", ['x'])], true⟩
        [("voices.plist", ⟨PlistContent.good [], false⟩)]
        ⟨OsOutcome.permErr, OsOutcome.ok⟩ =
      (⟨some "voices.plist", [("a", ['x'])], true⟩,
       [("voices.plist", ⟨PlistContent.good [], false⟩)],
       SaveResult.permissionDenied) :=
  savePlist_permission_spec.1 ⟨some "voices.plist", [("a", ['x'])], true⟩
    [("voices.plist", ⟨PlistContent.good [], false⟩)]
    ⟨OsOutcome.permErr, OsOutcome.ok⟩ "voices.plist"
    ⟨PlistContent.good [], false⟩ rfl (by decide) rfl rfl

/-- Claim C9: a failing load — the open failing because the file is absent,
    or the parse raising on malformed content — leaves the mapping, the
    recorded container path, and the modified flag exactly as they were. -/
theorem loadPlist_atomic_on_failure :
    (∀ (st : AppState) (fs : FS) (path : String),
        fsGet fs path = none → loadPlist st fs path = (st, LoadResult.loadError)) ∧
    (∀ (st : AppState) (fs : FS) (path : String) (w : Bool),
        fsGet fs path = some ⟨PlistContent.malformed, w⟩ →
        loadPlist st fs path = (st, LoadResult.loadError)) := by
  constructor
  · intro st fs path h
    simp [loadPlist, h]
  · intro st fs path w h
    simp [loadPlist, h]

/-- Witness for C9: a load with the file absent, and one with malformed
    content, both leave a concrete dirty state untouched. -/
theorem loadPlist_atomic_on_failure_witness :
    loadPlist ⟨some "old.plist", [("a", ['x'])], true⟩ [] "new.plist" =
      (⟨some "old.plist", [("a", ['x'])], true⟩, LoadResult.loadError) ∧
    loadPlist ⟨some "old.plist", [("a", ['x'])], true⟩
        [("bad.plist", ⟨PlistContent.malformed, true⟩)] "bad.plist" =
      (⟨some "old.plist", [("a", ['x'])], true⟩, LoadResult.loadError) :=
  ⟨loadPlist_atomic_on_failure.1 ⟨some "old.plist", [("a", ['x'])], true⟩ [] "new.plist" rfl,
   loadPlist_atomic_on_failure.2 ⟨some "old.plist", [("a", ['x'])], true⟩
     [("bad.plist", ⟨PlistContent.malformed, true⟩)] "bad.plist" true (by decide)⟩

theorem savePlist_saved_shape (st : AppState) (fs : FS) (ev : OsEnv) (path : String)
    (hpath : st.plistPath = some path)
    (hsaved : (savePlist st fs ev).2.2 = SaveResult.saved) :
    (savePlist st fs ev).1 = { st with modified := false } ∧
    fsGet (savePlist st fs ev).2.1 path = some ⟨PlistContent.good st.audioData, true⟩ := by
  cases hfs : fsGet fs path with
  | none =>
      cases hw : ev.writeResult <;>
        simp [savePlist, doWrite, hpath, hfs, hw, fsGet_fsSet_self] at hsaved ⊢
  | some fi =>
      cases hwr : fi.writable <;> cases hc : ev.chmodResult <;>
        cases hw : ev.writeResult <;>
        simp [savePlist, doWrite, hpath, hfs, hwr, hc, hw, fsGet_fsSet_self] at hsaved ⊢

/-- Claim C7: after a successful save, loading the same path succeeds and
    reproduces a container with the identical key set and, for every key,
    the identical stored payload, with the dirty flag cleared. -/
theorem save_load_roundtrip (st : AppState) (fs : FS) (ev : OsEnv) (path : String)
    (hpath : st.plistPath = some path)
    (hsaved : (savePlist st fs ev).2.2 = SaveResult.saved) :
    (loadPlist (savePlist st fs ev).1 (savePlist st fs ev).2.1 path).2 =
      LoadResult.loaded ∧
    (loadPlist (savePlist st fs ev).1 (savePlist st fs ev).2.1 path).1.audioData =
      st.audioData ∧
    (∀ k, dictGet (loadPlist (savePlist st fs ev).1 (savePlist st fs ev).2.1 path).1.audioData k =
      dictGet st.audioData k) ∧
    (loadPlist (savePlist st fs ev).1 (savePlist st fs ev).2.1 path).1.modified = false := by
  obtain ⟨hstate, hfile⟩ := savePlist_saved_shape st fs ev path hpath hsaved
  rw [hstate]
  simp [loadPlist, hfile]

/-- Witness for C7: a concrete dirty two-entry store saved to a fresh path
    loads back identically with the flag cleared. -/
theorem save_load_roundtrip_witness :
    (loadPlist
        (savePlist ⟨some "out.plist", [("a", ['Q']), ("b", [])], true⟩ [] ⟨OsOutcome.ok, OsOutcome.ok⟩).1
        (savePlist ⟨some "out.plist", [("a", ['Q']), ("b", [])], true⟩ [] ⟨OsOutcome.ok, OsOutcome.ok⟩).2.1
        "out.plist").2 = LoadResult.loaded ∧
    (loadPlist
        (savePlist ⟨some "out.plist", [("a", ['Q']), ("b", [])], true⟩ [] ⟨OsOutcome.ok, OsOutcome.ok⟩).1
        (savePlist ⟨some "out.plist", [("a", ['Q']), ("b", [])], true⟩ [] ⟨OsOutcome.ok, OsOutcome.ok⟩).2.1
        "out.plist").1.audioData = [("a", ['Q']), ("b", [])] ∧
    (loadPlist
        (savePlist ⟨some "out.plist", [("a", ['Q']), ("b", [])], true⟩ [] ⟨OsOutcome.ok, OsOutcome.ok⟩).1
        (savePlist ⟨some "out.plist", [("a", ['Q']), ("b", [])], true⟩ [] ⟨OsOutcome.ok, OsOutcome.ok⟩).2.1
        "out.plist").1.modified = false := by
  have h := save_load_roundtrip ⟨some "out.plist", [("a", ['Q']), ("b", [])], true⟩ []
    ⟨OsOutcome.ok, OsOutcome.ok⟩ "out.plist" rfl (by decide)
  exact ⟨h.1, h.2.1, h.2.2.2⟩

theorem savePlist_fail_frame (st : AppState) (fs : FS) (ev : OsEnv)
    (h : (savePlist st fs ev).2.2 ≠ SaveResult.saved) :
    (savePlist st fs ev).1 = st := by
  cases hp : st.plistPath with
  | none => simp [savePlist, hp]
  | some path =>
      cases hfs : fsGet fs path with
      | none =>
          cases hw : ev.writeResult <;>
            simp [savePlist, doWrite, hp, hfs, hw] at h ⊢
      | some fi =>
          cases hwr : fi.writable <;> cases hc : ev.chmodResult <;>
            cases hw : ev.writeResult <;>
            simp [savePlist, doWrite, hp, hfs, hwr, hc, hw] at h ⊢

/-- Claim C5 counterexample: a successful load is not a save, yet it clears
    a set modified flag — `load_plist` ends with `self.modified = False`. -/
theorem modified_flag_load_counterexample :
    (⟨some "p.plist", [("a", ['x'])], true⟩ : AppState).modified = true ∧
    (applyOp ⟨some "p.plist", [("a", ['x'])], true⟩
        [("q.plist", ⟨PlistContent.good [], true⟩)]
        ⟨OsOutcome.ok, OsOutcome.ok⟩ (StoreOp.load "q.plist")).2.2 = OpResult.loaded ∧
    (applyOp ⟨some "p.plist", [("a", ['x'])], true⟩
        [("q.plist", ⟨PlistContent.good [], true⟩)]
        ⟨OsOutcome.ok, OsOutcome.ok⟩ (StoreOp.load "q.plist")).1.modified = false := by
  decide

/-- Claim C5 (amended): every mutation — a stored conversion result, a
    successful rename, a delete — sets the modified flag, and the flag
    transitions from set to clear only through a successful save or a
    successful load. -/
theorem modified_flag_spec :
    (∀ (st : AppState) (fs : FS) (ev : OsEnv) (op : StoreOp),
        (applyOp st fs ev op).2.2 = OpResult.mutated →
        (applyOp st fs ev op).1.modified = true) ∧
    (∀ (st : AppState) (fs : FS) (ev : OsEnv) (op : StoreOp),
        st.modified = true → (applyOp st fs ev op).1.modified = false →
        (op = StoreOp.save ∧ (applyOp st fs ev op).2.2 = OpResult.saved) ∨
        (∃ path, op = StoreOp.load path ∧
          (applyOp st fs ev op).2.2 = OpResult.loaded)) := by
  constructor
  · intro st fs ev op h
    cases op with
    | put n p => simp [applyOp, onConvertFinished]
    | delete names => simp [applyOp, deleteSelected]
    | rename old new =>
        rcases hE : renameSelected st.audioData old new with ⟨d, k⟩
        cases k <;> simp [applyOp, hE] at h ⊢
    | load path =>
        cases hg : fsGet fs path with
        | none => simp [applyOp, loadPlist, hg] at h
        | some fi =>
            obtain ⟨content, w⟩ := fi
            cases content <;> simp [applyOp, loadPlist, hg] at h
    | save =>
        rcases hs : savePlist st fs ev with ⟨st', fs', r⟩
        cases r <;> simp [applyOp, hs] at h
  · intro st fs ev op hm hc
    cases op with
    | put n p => simp [applyOp, onConvertFinished] at hc
    | delete names => simp [applyOp, deleteSelected] at hc
    | rename old new =>
        rcases hE : renameSelected st.audioData old new with ⟨d, k⟩
        cases k <;> simp [applyOp, hE, hm] at hc
    | load path =>
        cases hg : fsGet fs path with
        | none => simp [applyOp, loadPlist, hg, hm] at hc
        | some fi =>
            obtain ⟨content, w⟩ := fi
            cases content with
            | malformed => simp [applyOp, loadPlist, hg, hm] at hc
            | good d =>
                refine Or.inr ⟨path, rfl, ?_⟩
                simp [applyOp, loadPlist, hg]
    | save =>
        have hframe := savePlist_fail_frame st fs ev
        rcases hs : savePlist st fs ev with ⟨st', fs', r⟩
        rw [hs] at hframe
        cases r with
        | saved =>
            refine Or.inl ⟨rfl, ?_⟩
            simp [applyOp, hs]
        | permissionDenied =>
            have hst : st' = st := hframe (by simp)
            simp [applyOp, hs, hst, hm] at hc
        | otherError =>
            have hst : st' = st := hframe (by simp)
            simp [applyOp, hs, hst, hm] at hc
        | needsPath =>
            have hst : st' = st := hframe (by simp)
            simp [applyOp, hs, hst, hm] at hc

/-- Witness for the amended C5: a concrete put sets the flag; a concrete
    successful save is identified as the (only non-load) clearing
    operation. -/
theorem modified_flag_spec_witness :
    (applyOp ⟨some "p.plist", [], false⟩ [] ⟨OsOutcome.ok, OsOutcome.ok⟩
        (StoreOp.put "n" [7])).1.modified = true ∧
    ((StoreOp.save = StoreOp.save ∧
        (applyOp ⟨some "p.plist", [], true⟩ [] ⟨OsOutcome.ok, OsOutcome.ok⟩
          StoreOp.save).2.2 = OpResult.saved) ∨
     (∃ path, StoreOp.save = StoreOp.load path ∧
        (applyOp ⟨some "p.plist", [], true⟩ [] ⟨OsOutcome.ok, OsOutcome.ok⟩
          StoreOp.save).2.2 = OpResult.loaded)) :=
  ⟨modified_flag_spec.1 ⟨some "p.plist", [], false⟩ [] ⟨OsOutcome.ok, OsOutcome.ok⟩
      (StoreOp.put "n" [7]) (by decide),
   modified_flag_spec.2 ⟨some "p.plist", [], true⟩ [] ⟨OsOutcome.ok, OsOutcome.ok⟩
      StoreOp.save rfl (by decide)⟩

/-- Claim C8 counterexample: the batch-complete signal is the same fixed
    message whether 0 of 1 or 1 of 1 jobs succeeded — it carries no counts,
    so it cannot "report 0 succeeded of 1". -/
theorem batch_report_no_counts_counterexample :
    (runBatch [] [⟨"f", none, false, none⟩]).2.2 =
      (runBatch [] [⟨"f", some "a", false, some []⟩]).2.2 ∧
    successCount (runBatch [] [⟨"f", none, false, none⟩]).2.1 = 0 ∧
    successCount (runBatch [] [⟨"f", some "a", false, some []⟩]).2.1 = 1 := by
  decide

/-- Claim C8 (amended): a job whose naming dialog is cancelled ends Skipped
    with no error recorded and leaves the store untouched by that job, the
    batch proceeding to the rest; a batch of one cancelled job yields one
    terminal outcome, 0 succeeded, the store unchanged, and the fixed
    count-free completion message. -/
theorem cancel_naming_skips (d : VDict) (j : JobInput) (rest : List JobInput)
    (hc : j.nameResponse = none) :
    runQueue d (j :: rest) =
      ((runQueue d rest).1, JobOutcome.skipped :: (runQueue d rest).2) ∧
    runQueue d [j] = (d, [JobOutcome.skipped]) ∧
    successCount (runQueue d [j]).2 = 0 ∧
    (runQueue d [j]).2.length = 1 ∧
    runBatch d [j] = (d, [JobOutcome.skipped], batchCompleteMessage) := by
  refine ⟨?_, ?_, ?_, ?_, ?_⟩ <;>
    simp [runQueue, runBatch, successCount, hc]

/-- Witness for the amended C8: the one-job cancelled batch on a concrete
    nonempty store. -/
theorem cancel_naming_skips_witness :
    runQueue [("a", ['x'])] [⟨"song", none, true, some [1]⟩] =
      ([("a", ['x'])], [JobOutcome.skipped]) ∧
    successCount (runQueue [("a", ['x'])] [⟨"song", none, true, some [1]⟩]).2 = 0 ∧
    runBatch [("a", ['x'])] [⟨"song", none, true, some [1]⟩] =
      ([("a", ['x'])], [JobOutcome.skipped], batchCompleteMessage) := by
  have h := cancel_naming_skips [("a", ['x'])] ⟨"song", none, true, some [1]⟩ [] rfl
  exact ⟨h.2.1, h.2.2.1, h.2.2.2.2⟩

/-- Claim C4 counterexample: a nonzero ffmpeg exit makes `audio_to_silk`
    `return None` with its PCM intermediate still on disk — a temporary
    artifact is left behind on a failure exit path. -/
theorem audio_to_silk_leak_counterexample :
    (audioToSilkTemps ⟨true, false, true⟩).1 = false ∧
    leftoverTemps (audioToSilkTemps ⟨true, false, true⟩) = [TempArtifact.pcmTmp] := by
  decide

/-- Claim C4 (amended): each converter removes all of its intermediate temp
    files on the success path, and the CLI converter removes them on every
    exit path via its `finally` block; the `AudioConverter` failure paths,
    however, can leave intermediates behind. -/
theorem temp_cleanup_spec :
    (∀ ev : ConvEnv, (audioToSilkTemps ev).1 = true →
        leftoverTemps (audioToSilkTemps ev) = []) ∧
    (∀ ev : DecodeEnv, (silkToWavTemps ev).1 = true →
        leftoverTemps (silkToWavTemps ev) = []) ∧
    (∀ ev : DecodeEnv, leftoverTemps (convertSilkToAudioCli ev) = []) := by
  refine ⟨?_, ?_, ?_⟩
  · rintro ⟨f, e, k⟩ h
    revert h
    cases f <;> cases e <;> cases k <;> decide
  · rintro ⟨i, d, x⟩ h
    revert h
    cases i <;> cases d <;> cases x <;> decide
  · rintro ⟨i, d, x⟩
    cases i <;> cases d <;> cases x <;> decide

/-- Witness for the amended C4: the fully successful encode leaves nothing
    behind, and the CLI converter leaves nothing behind even when the
    decode fails. -/
theorem temp_cleanup_spec_witness :
    leftoverTemps (audioToSilkTemps ⟨true, true, true⟩) = [] ∧
    leftoverTemps (convertSilkToAudioCli ⟨true, false, true⟩) = [] :=
  ⟨temp_cleanup_spec.1 ⟨true, true, true⟩ (by decide),
   temp_cleanup_spec.2.2 ⟨true, false, true⟩⟩

theorem startsWithSpace_dropWhile (l : List Char) :
    startsWithSpace (List.dropWhile isSpaceChar l) = false := by
  induction l with
  | nil => rfl
  | cons a t ih =>
      by_cases h : isSpaceChar a = true
      · rw [List.dropWhile_cons, if_pos h]
        exact ih
      · rw [List.dropWhile_cons, if_neg (by simp [h])]
        simpa [startsWithSpace] using h

theorem dropWhile_append_keep (l : List Char) (c : Char) (hc : isSpaceChar c = false) :
    List.dropWhile isSpaceChar (l ++ [c]) = List.dropWhile isSpaceChar l ++ [c] := by
  induction l with
  | nil => simp [List.dropWhile_cons, hc]
  | cons a t ih =>
      by_cases h : isSpaceChar a = true
      · rw [List.cons_append, List.dropWhile_cons, if_pos h, List.dropWhile_cons, if_pos h]
        exact ih
      · rw [List.cons_append, List.dropWhile_cons, if_neg (by simp [h]),
          List.dropWhile_cons, if_neg (by simp [h]), List.cons_append]

theorem startsWithSpace_rev_dropWhile_rev (u : List Char)
    (hu : startsWithSpace u = false) :
    startsWithSpace (List.dropWhile isSpaceChar u.reverse).reverse = false := by
  cases u with
  | nil => rfl
  | cons c t =>
      have hc : isSpaceChar c = false := hu
      rw [List.reverse_cons, dropWhile_append_keep t.reverse c hc,
        List.reverse_append]
      simpa [startsWithSpace] using hc

theorem stripChars_edges (l : List Char) :
    startsWithSpace (stripChars l) = false ∧
    startsWithSpace (stripChars l).reverse = false := by
  constructor
  · exact startsWithSpace_dropWhile _
  · exact startsWithSpace_rev_dropWhile_rev (List.dropWhile isSpaceChar l.reverse)
      (startsWithSpace_dropWhile _)

theorem mem_dropWhile (p : Char → Bool) (l : List Char) (c : Char)
    (h : c ∈ List.dropWhile p l) : c ∈ l := by
  induction l with
  | nil => simp at h
  | cons a t ih =>
      by_cases hp : p a = true
      · rw [List.dropWhile_cons, if_pos hp] at h
        exact List.mem_cons_of_mem a (ih h)
      · rw [List.dropWhile_cons, if_neg (by simp [hp])] at h
        exact h

theorem mem_stripChars (l : List Char) (c : Char) (h : c ∈ stripChars l) : c ∈ l := by
  unfold stripChars at h
  have h1 := mem_dropWhile _ _ _ h
  rw [List.mem_reverse] at h1
  have h2 := mem_dropWhile _ _ _ h1
  rwa [List.mem_reverse] at h2

theorem length_dropWhile_le (p : Char → Bool) (l : List Char) :
    (List.dropWhile p l).length ≤ l.length := by
  induction l with
  | nil => simp
  | cons a t ih =>
      by_cases hp : p a = true
      · rw [List.dropWhile_cons, if_pos hp]
        exact le_trans ih (by simp)
      · rw [List.dropWhile_cons, if_neg (by simp [hp])]

theorem length_stripChars_le (l : List Char) : (stripChars l).length ≤ l.length := by
  unfold stripChars
  calc (List.dropWhile isSpaceChar
          ((List.dropWhile isSpaceChar l.reverse).reverse)).length
      ≤ ((List.dropWhile isSpaceChar l.reverse).reverse).length :=
        length_dropWhile_le _ _
    _ = (List.dropWhile isSpaceChar l.reverse).length := by simp
    _ ≤ l.reverse.length := length_dropWhile_le _ _
    _ = l.length := by simp

/-- Claim C10: for every input name, the sanitized filename contains none
    of the characters `< > : " / \ | ? *`, has length at most 50, starts
    and ends with no whitespace, and is never empty (falling back to
    "unnamed"). -/
theorem sanitize_filename_spec (name : List Char) :
    (sanitize_filename name).all (fun c => !illegalFilenameChars.contains c) = true ∧
    (sanitize_filename name).length ≤ 50 ∧
    startsWithSpace (sanitize_filename name) = false ∧
    startsWithSpace (sanitize_filename name).reverse = false ∧
    (sanitize_filename name).isEmpty = false := by
  simp only [sanitize_filename]
  by_cases hemp :
      (stripChars ((name.filter (fun c => !illegalFilenameChars.contains c)).take 50)).isEmpty = true
  · rw [if_pos hemp]
    refine ⟨by decide, by decide, by decide, by decide, by decide⟩
  · rw [if_neg hemp]
    refine ⟨?_, ?_, ?_, ?_, ?_⟩
    · rw [List.all_eq_true]
      intro c hcmem
      have h1 := mem_stripChars _ _ hcmem
      have h2 := List.mem_of_mem_take h1
      exact (List.mem_filter.mp h2).2
    · calc (stripChars ((name.filter (fun c => !illegalFilenameChars.contains c)).take 50)).length
          ≤ ((name.filter (fun c => !illegalFilenameChars.contains c)).take 50).length :=
            length_stripChars_le _
        _ ≤ 50 := by simp [List.length_take]
    · exact (stripChars_edges _).1
    · exact (stripChars_edges _).2
    · simpa using hemp
